import Mathlib

/-!
Shallow embedding of the taobin-pubsub-test repository (src/app.ts).

The program is an in-memory publish/subscribe system for vending-machine
stock events.  The embedding below translates the TypeScript classes into
Lean definitions:

* `Machine` — class `Machine` (id, stockLevel, lowLevelWarned; stock starts at 5).
* `Event` — the closed set of `IEvent` implementations
  (`MachineSaleEvent`, `MachineRefillEvent`, `LowStockWarningEvent`,
  `StockLevelOkEvent`), with `Event.etype` translating the `type()` methods
  and `Event.machineId` the `machineId()` methods.
* `MachineRepository.find` — `MachineRepository.find` (first machine whose
  `id` matches; the TS code throws `Error('Machine not found')` when absent,
  modelled as an `Option`/error string).
* `Subscriber` — the closed set of `ISubscriber` implementations present in
  the program, plus one modelled failing handler (see its doc comment).
* `BusState` — the mutable state the program threads around: the shared
  machine array, the bus's `_subscribers` map (an association list), a trace
  of every `subscriber.handle(event)` invocation the bus performs, and the
  console output of `StockWarningSubscriber`.
* `Subscriber.handle`, `publish`, `subscribe`, `unsubscribe` — the methods of
  `MachineSaleSubscriber`, `MachineRefillSubscriber`, `StockWarningSubscriber`
  and `DefaultPublishSubscribeService`.

TypeScript exceptions do not roll back mutations already made, so every
operation returns `BusState × Option Err`: the state reached so far together
with `some err` when an exception escapes.  A thrown exception aborts the
`forEach` loop in `publish`, which is modelled by the dispatch folds stopping
at the first error.
-/

/-- Error values: the message of the thrown exception.  `MachineRepository.find`
throws `Error('Machine not found')`; calling an event-specific accessor such as
`getSoldQuantity` on an event class that lacks it raises a runtime `TypeError`. -/
abbrev Err := String

/-- Class `Machine` from src/app.ts: `stockLevel` starts at 5 and
`lowLevelWarned` at `false`; `id` is set at construction. -/
structure Machine where
  id : String
  stockLevel : Int
  lowLevelWarned : Bool
deriving DecidableEq, Repr

/-- A fresh machine as constructed by `new Machine(id)`. -/
def Machine.new (id : String) : Machine :=
  { id := id, stockLevel := 5, lowLevelWarned := false }

/-- The closed set of `IEvent` implementations in src/app.ts.
`sale` is `MachineSaleEvent(sold, machineId)`, `refill` is
`MachineRefillEvent(refill, machineId)`, `lowStockWarning` is
`LowStockWarningEvent(machineId)`, `stockLevelOk` is
`StockLevelOkEvent(machineId)`. -/
inductive Event where
  | sale (sold : Int) (mid : String)
  | refill (refillQ : Int) (mid : String)
  | lowStockWarning (mid : String)
  | stockLevelOk (mid : String)
deriving DecidableEq, Repr

/-- The `type()` method of each event class.  Note that both
`LowStockWarningEvent.type()` and `StockLevelOkEvent.type()` return the
string `'warning'`. -/
def Event.etype : Event → String
  | .sale _ _ => "sale"
  | .refill _ _ => "refill"
  | .lowStockWarning _ => "warning"
  | .stockLevelOk _ => "warning"

/-- The `machineId()` method of each event class. -/
def Event.machineId : Event → String
  | .sale _ mid => mid
  | .refill _ mid => mid
  | .lowStockWarning mid => mid
  | .stockLevelOk mid => mid

/-- The `ISubscriber` implementations registered with the bus.
`machineSale`, `machineRefill` and `stockWarning` are the classes
`MachineSaleSubscriber`, `MachineRefillSubscriber` and
`StockWarningSubscriber` of src/app.ts (all sharing the one
`MachineRepository` the demo constructs).  `failing` is modelled from the
spec: §7 of the specification discusses a handler whose `handle` call fails
mid-drain, but src/ contains no such handler; `failing.handle` always
throws. -/
inductive Subscriber where
  | machineSale
  | machineRefill
  | stockWarning
  | failing
deriving DecidableEq, Repr

/-- The state the program mutates: the shared machine array owned by
`MachineRepository`, the `_subscribers` map of
`DefaultPublishSubscribeService` (as an association list from event-type
string to the ordered subscriber array), the chronological trace of
`subscriber.handle(event)` invocations made by `publish`, and the
chronological console output of `StockWarningSubscriber.handle`. -/
@[ext]
structure BusState where
  machines : List Machine
  subscribers : List (String × List Subscriber)
  trace : List (Subscriber × Event)
  output : List String
deriving DecidableEq, Repr

/-- `MachineRepository.find`: returns the first machine in the array whose
`id` matches, `none` when the TS code would throw `Error('Machine not found')`. -/
def MachineRepository.find (ms : List Machine) (id : String) : Option Machine :=
  ms.find? (fun m => m.id == id)

/-- Mutating the machine object returned by `find` in place: the first
machine with the given id is replaced by `f` applied to it; the rest of the
array is untouched. -/
def updateFirst : List Machine → String → (Machine → Machine) → List Machine
  | [], _, _ => []
  | m :: ms, id, f => if m.id == id then f m :: ms else m :: updateFirst ms id f

/-- Lookup in the `_subscribers` map (`this._subscribers.get(type)`). -/
def subsFor (subs : List (String × List Subscriber)) (ty : String) :
    Option (List Subscriber) :=
  (subs.find? (fun p => p.1 == ty)).map (fun p => p.2)

/-- `MachineRepository.find` against the state's machine array. -/
def findMachine (st : BusState) (mid : String) : Option Machine :=
  MachineRepository.find st.machines mid

/-- Console messages printed by `StockWarningSubscriber.handle`. -/
def warnMsg (mid : String) : String :=
  "Machine[" ++ mid ++ "] need to be refill"

/-- Console message for the `StockLevelOkEvent` branch of
`StockWarningSubscriber.handle`. -/
def okMsg (mid : String) : String :=
  "Machine[" ++ mid ++ "] status is OK"

/-- Behaviour of each subscriber's `handle` method on the events that reach
it from a nested `publish` call — always a `'warning'`-typed event, i.e.
`LowStockWarningEvent` or `StockLevelOkEvent` — and more generally on any
event on which its `handle` body performs no `publish` call of its own:

* `MachineSaleSubscriber.handle` on a non-sale event first runs
  `this._repository.find(event.machineId())` (which may throw `Machine not
  found`), then evaluates `event.getSoldQuantity()`, a method the warning
  event classes lack, raising a `TypeError` before any mutation.
* `MachineRefillSubscriber.handle` symmetrically via `getRefillQuantity()`.
* `StockWarningSubscriber.handle` logs a message for `LowStockWarningEvent`
  or `StockLevelOkEvent` and does nothing for any other event (its
  `instanceof` chain has no else branch).
* the modelled `failing` handler throws.

The lemma `handle_eq_handleWarnEvt_of_warning` below proves this function
agrees with the full `Subscriber.handle` on every `'warning'`-typed event,
which is the only kind of event the program ever publishes from inside a
handler. -/
def handleWarnEvt (s : Subscriber) (ev : Event) (st : BusState) :
    BusState × Option Err :=
  match s with
  | .machineSale =>
    match findMachine st ev.machineId with
    | none => (st, some "Machine not found")
    | some _ => (st, some "TypeError")
  | .machineRefill =>
    match findMachine st ev.machineId with
    | none => (st, some "Machine not found")
    | some _ => (st, some "TypeError")
  | .stockWarning =>
    match ev with
    | .lowStockWarning mid => ({ st with output := st.output ++ [warnMsg mid] }, none)
    | .stockLevelOk mid => ({ st with output := st.output ++ [okMsg mid] }, none)
    | _ => (st, none)
  | .failing => (st, some "handler failure")

/-- The `forEach` loop of `DefaultPublishSubscribeService.publish` for a
nested (handler-initiated) publish: each subscriber in list order has the
invocation recorded and its `handle` run; a thrown exception aborts the loop
and escapes, keeping all mutations made so far. -/
def dispatchW : List Subscriber → Event → BusState → BusState × Option Err
  | [], _, st => (st, none)
  | s :: rest, ev, st =>
    let st1 : BusState := { st with trace := st.trace ++ [(s, ev)] }
    match handleWarnEvt s ev st1 with
    | (st2, some e) => (st2, some e)
    | (st2, none) => dispatchW rest ev st2

/-- `DefaultPublishSubscribeService.publish` as invoked from inside a
handler (`this._pubSubService.publish(...)`): look up the current subscriber
list for the event's type (no subscribers means the optional-chained
`forEach` does nothing) and dispatch to each in order.  The events passed
here are always `'warning'`-typed, on which no handler publishes further, so
`handleWarnEvt` is the exact handler semantics
(`handle_eq_handleWarnEvt_of_warning`). -/
def publishInner (ev : Event) (st : BusState) : BusState × Option Err :=
  match subsFor st.subscribers ev.etype with
  | none => (st, none)
  | some subs => dispatchW subs ev st

/-- The `handle` methods of the subscriber classes, src/app.ts lines
107–153:

* `MachineSaleSubscriber.handle(event)`: find the machine (throw if absent),
  `machine.stockLevel -= event.getSoldQuantity()`, then if
  `machine.stockLevel <= 3 && !machine.lowLevelWarned` publish a
  `LowStockWarningEvent` (dispatched immediately by the bus) and afterwards
  set `machine.lowLevelWarned = true`.  If the nested publish throws, the
  flag assignment is never reached.  On an event without `getSoldQuantity`
  the method call raises a `TypeError` after the find and before any
  mutation.
* `MachineRefillSubscriber.handle(event)`: find the machine,
  `machine.stockLevel += event.getRefillQuantity()`, then if
  `machine.stockLevel >= 3 && machine.lowLevelWarned` publish a
  `StockLevelOkEvent` and afterwards set `machine.lowLevelWarned = false`.
* `StockWarningSubscriber.handle` and the modelled `failing` handler behave
  as in `handleWarnEvt` on every event. -/
def Subscriber.handle (s : Subscriber) (ev : Event) (st : BusState) :
    BusState × Option Err :=
  match s, ev with
  | .machineSale, .sale q mid =>
    match findMachine st mid with
    | none => (st, some "Machine not found")
    | some m =>
      let s1 : Int := m.stockLevel - q
      let st1 : BusState :=
        { st with machines :=
            updateFirst st.machines mid (fun mm => { mm with stockLevel := s1 }) }
      if s1 ≤ 3 ∧ m.lowLevelWarned = false then
        match publishInner (Event.lowStockWarning mid) st1 with
        | (st2, some e) => (st2, some e)
        | (st2, none) =>
          ({ st2 with machines :=
              updateFirst st2.machines mid (fun mm => { mm with lowLevelWarned := true }) },
           none)
      else (st1, none)
  | .machineRefill, .refill q mid =>
    match findMachine st mid with
    | none => (st, some "Machine not found")
    | some m =>
      let s1 : Int := m.stockLevel + q
      let st1 : BusState :=
        { st with machines :=
            updateFirst st.machines mid (fun mm => { mm with stockLevel := s1 }) }
      if 3 ≤ s1 ∧ m.lowLevelWarned = true then
        match publishInner (Event.stockLevelOk mid) st1 with
        | (st2, some e) => (st2, some e)
        | (st2, none) =>
          ({ st2 with machines :=
              updateFirst st2.machines mid (fun mm => { mm with lowLevelWarned := false }) },
           none)
      else (st1, none)
  | .machineSale, ev =>
    match findMachine st ev.machineId with
    | none => (st, some "Machine not found")
    | some _ => (st, some "TypeError")
  | .machineRefill, ev =>
    match findMachine st ev.machineId with
    | none => (st, some "Machine not found")
    | some _ => (st, some "TypeError")
  | .stockWarning, .lowStockWarning mid =>
    ({ st with output := st.output ++ [warnMsg mid] }, none)
  | .stockWarning, .stockLevelOk mid =>
    ({ st with output := st.output ++ [okMsg mid] }, none)
  | .stockWarning, _ => (st, none)
  | .failing, _ => (st, some "handler failure")

/-- The `forEach` loop of `publish` at top level, dispatching with the full
handler semantics. -/
def dispatch : List Subscriber → Event → BusState → BusState × Option Err
  | [], _, st => (st, none)
  | s :: rest, ev, st =>
    let st1 : BusState := { st with trace := st.trace ++ [(s, ev)] }
    match Subscriber.handle s ev st1 with
    | (st2, some e) => (st2, some e)
    | (st2, none) => dispatch rest ev st2

/-- `DefaultPublishSubscribeService.publish(event)`, src/app.ts lines
159–164: `this._subscribers.get(event.type())?.forEach(subscriber =>
subscriber.handle(event))`.  There is no pending queue: each subscriber is
invoked immediately, and any event a handler publishes is dispatched
recursively inside that invocation. -/
def publish (ev : Event) (st : BusState) : BusState × Option Err :=
  match subsFor st.subscribers ev.etype with
  | none => (st, none)
  | some subs => dispatch subs ev st

/-- Sequential publication of a list of events by a caller
(`events.map(event => pubSubService.publish(event))` in the demo driver): a
thrown exception escapes `publish` and aborts the remaining iterations. -/
def publishAll : List Event → BusState → BusState × Option Err
  | [], st => (st, none)
  | ev :: evs, st =>
    match publish ev st with
    | (st1, some e) => (st1, some e)
    | (st1, none) => publishAll evs st1

/-- `DefaultPublishSubscribeService.subscribe(type, handler)`, lines
165–171: push onto the existing array for the type, or create a fresh
one-element array. -/
def subscribe (st : BusState) (ty : String) (h : Subscriber) : BusState :=
  if st.subscribers.any (fun p => p.1 == ty) then
    { st with subscribers :=
        st.subscribers.map (fun p => if p.1 == ty then (p.1, p.2 ++ [h]) else p) }
  else
    { st with subscribers := st.subscribers ++ [(ty, [h])] }

/-- `DefaultPublishSubscribeService.unsubscribe(type)`, lines 173–175:
`this._subscribers.delete(type)` — the whole entry for the event type is
removed. -/
def unsubscribe (st : BusState) (ty : String) : BusState :=
  { st with subscribers := st.subscribers.filter (fun p => !(p.1 == ty)) }

/-- The subscriber wiring the demo driver sets up (src/app.ts lines
237–239): the sale subscriber under `'sale'`, the refill subscriber under
`'refill'`, the stock-warning subscriber under `'warning'`. -/
def demoSubs : List (String × List Subscriber) :=
  [("sale", [Subscriber.machineSale]),
   ("refill", [Subscriber.machineRefill]),
   ("warning", [Subscriber.stockWarning])]

/-- The three machines the demo driver creates, each at stock level 5. -/
def demoMachines : List Machine :=
  [Machine.new "001", Machine.new "002", Machine.new "003"]

/-- The demo driver's initial state after wiring. -/
def demoState : BusState :=
  { machines := demoMachines, subscribers := demoSubs, trace := [], output := [] }

/-!
Per-machine threshold step semantics.

`MachineSaleSubscriber.handle` and `MachineRefillSubscriber.handle` act on a
single machine's `(stockLevel, lowLevelWarned)` pair; the step functions
below are that action together with a flag recording whether the handler
published a derived event.  `publish_sale_demo` and `publish_refill_demo`
below prove that, under the demo wiring, a bus-level `publish` of a sale or
refill event acts on the target machine exactly by these steps.
-/

/-- The effect of `MachineSaleSubscriber.handle` on the target machine's
`(stockLevel, lowLevelWarned)` pair: subtract the sold quantity; if the new
stock is `≤ 3` and the machine is not yet warned, a `LowStockWarningEvent`
is published (the Boolean result) and the flag is set. -/
def saleStep (q : Int) (s : Int × Bool) : (Int × Bool) × Bool :=
  let s1 : Int := s.1 - q
  if s1 ≤ 3 ∧ s.2 = false then ((s1, true), true) else ((s1, s.2), false)

/-- The effect of `MachineRefillSubscriber.handle` on the target machine's
`(stockLevel, lowLevelWarned)` pair: add the refill quantity; if the new
stock is `≥ 3` and the machine is warned, a `StockLevelOkEvent` is published
(the Boolean result) and the flag is cleared. -/
def refillStep (q : Int) (s : Int × Bool) : (Int × Bool) × Bool :=
  let s1 : Int := s.1 + q
  if 3 ≤ s1 ∧ s.2 = true then ((s1, false), true) else ((s1, s.2), false)

/-- Fold of `saleStep` over a list of sale quantities, counting how many
`LowStockWarningEvent`s the sale handler publishes along the way. -/
def runSales : List Int → (Int × Bool) → (Int × Bool) × Nat
  | [], s => (s, 0)
  | q :: qs, s =>
    let r := saleStep q s
    let rest := runSales qs r.1
    (rest.1, (if r.2 then 1 else 0) + rest.2)

/-- Fold of `refillStep` over a list of refill quantities, counting how many
`StockLevelOkEvent`s the refill handler publishes along the way. -/
def runRefills : List Int → (Int × Bool) → (Int × Bool) × Nat
  | [], s => (s, 0)
  | q :: qs, s =>
    let r := refillStep q s
    let rest := runRefills qs r.1
    (rest.1, (if r.2 then 1 else 0) + rest.2)

/-- A sale or refill applied to one machine, for mixed sequences. -/
inductive Op where
  | sale (q : Int)
  | refill (q : Int)
deriving DecidableEq, Repr

/-- The kind of derived event a handler publishes. -/
inductive EmitKind where
  | warning
  | ok
deriving DecidableEq, Repr

/-- One mixed step, returning the derived event it publishes, if any. -/
def opStep (o : Op) (s : Int × Bool) : (Int × Bool) × Option EmitKind :=
  match o with
  | .sale q =>
    let r := saleStep q s
    (r.1, if r.2 then some EmitKind.warning else none)
  | .refill q =>
    let r := refillStep q s
    (r.1, if r.2 then some EmitKind.ok else none)

/-- Fold of `opStep` over a mixed sale/refill sequence, accumulating the
derived events most-recent-first (the head of the final list is the latest
emission). -/
def runOps : List Op → (Int × Bool) → List EmitKind → (Int × Bool) × List EmitKind
  | [], s, acc => (s, acc)
  | o :: os, s, acc =>
    let r := opStep o s
    runOps os r.1 (match r.2 with | some e => e :: acc | none => acc)

/-- On every `'warning'`-typed event — the only kind of event the program
publishes from inside a handler — the full handler semantics agrees with
`handleWarnEvt`, so modelling the nested `publish` call by `publishInner`
is faithful. -/
theorem handle_eq_handleWarnEvt_of_warning (s : Subscriber) (ev : Event)
    (st : BusState) (h : ev.etype = "warning") :
    Subscriber.handle s ev st = handleWarnEvt s ev st := by
  cases s <;> cases ev <;> simp [Event.etype] at h ⊢ <;>
    simp [Subscriber.handle, handleWarnEvt]

/-- On every `'warning'`-typed event, the nested-dispatch loop agrees with
the top-level one. -/
theorem dispatch_eq_dispatchW_of_warning (subs : List Subscriber) (ev : Event)
    (st : BusState) (h : ev.etype = "warning") :
    dispatch subs ev st = dispatchW subs ev st := by
  induction subs generalizing st with
  | nil => rfl
  | cons s rest ih =>
    simp only [dispatch, dispatchW, handle_eq_handleWarnEvt_of_warning s ev _ h]
    cases handleWarnEvt s ev { st with trace := st.trace ++ [(s, ev)] } with
    | mk st2 e =>
      cases e with
      | none => exact ih st2
      | some err => rfl

/-- On every `'warning'`-typed event, `publishInner` is exactly `publish`:
the embedding's treatment of handler-initiated publishes is the program's
recursive `publish` call. -/
theorem publishInner_eq_publish_of_warning (ev : Event) (st : BusState)
    (h : ev.etype = "warning") :
    publishInner ev st = publish ev st := by
  unfold publishInner publish
  cases subsFor st.subscribers ev.etype with
  | none => rfl
  | some subs => exact (dispatch_eq_dispatchW_of_warning subs ev st h).symm

/-- Two successive in-place updates of the same machine compose, provided
the first does not change the id the lookup uses. -/
theorem updateFirst_updateFirst (ms : List Machine) (id : String)
    (f g : Machine → Machine) (hid : ∀ m, (f m).id = m.id) :
    updateFirst (updateFirst ms id f) id g = updateFirst ms id (fun m => g (f m)) := by
  induction ms with
  | nil => rfl
  | cons m ms ih =>
    by_cases h : m.id == id
    · simp [updateFirst, h, hid m]
    · simp [updateFirst, h, ih]

/-- `updateFirst` only applies its function to the machine `find` returns,
so two updaters that agree there give the same array. -/
theorem updateFirst_congr (ms : List Machine) (id : String)
    (f g : Machine → Machine) (m : Machine)
    (hfind : MachineRepository.find ms id = some m) (hfg : f m = g m) :
    updateFirst ms id f = updateFirst ms id g := by
  induction ms with
  | nil => simp [MachineRepository.find] at hfind
  | cons m0 ms ih =>
    by_cases h : m0.id == id
    · have : m0 = m := by
        simpa [MachineRepository.find, List.find?, h] using hfind
      subst this
      simp [updateFirst, h, hfg]
    · have hfind' : MachineRepository.find ms id = some m := by
        simpa [MachineRepository.find, List.find?, h] using hfind
      simp [updateFirst, h, ih hfind']

/-- Under the demo wiring, publishing a `MachineSaleEvent` for a machine
present in the store acts on that machine exactly by `saleStep`, records the
sale dispatch (and, when the step fires, the immediately-dispatched
`LowStockWarningEvent`) in the trace, logs the warning message when fired,
and throws nothing. -/
theorem publish_sale_demo (st : BusState) (q : Int) (mid : String) (m : Machine)
    (hw : st.subscribers = demoSubs) (hf : findMachine st mid = some m) :
    publish (Event.sale q mid) st =
      (let r := saleStep q (m.stockLevel, m.lowLevelWarned)
       ({ st with
          machines := updateFirst st.machines mid
            (fun mm => { mm with stockLevel := r.1.1, lowLevelWarned := r.1.2 }),
          trace := st.trace ++ [(Subscriber.machineSale, Event.sale q mid)] ++
            (if r.2 then [(Subscriber.stockWarning, Event.lowStockWarning mid)] else []),
          output := st.output ++ (if r.2 then [warnMsg mid] else []) }, none)) := by
  have hsub : subsFor st.subscribers "sale" = some [Subscriber.machineSale] := by
    rw [hw]; rfl
  have hsub2 : subsFor st.subscribers "warning" = some [Subscriber.stockWarning] := by
    rw [hw]; rfl
  have hf1 : findMachine { st with trace := st.trace ++ [(Subscriber.machineSale, Event.sale q mid)] } mid = some m := hf
  by_cases hc : m.stockLevel - q ≤ 3 ∧ m.lowLevelWarned = false
  · simp only [publish, Event.etype, hsub, dispatch, Subscriber.handle, hf1,
      if_pos hc, publishInner, hsub2, dispatchW, handleWarnEvt, saleStep]
    rw [updateFirst_updateFirst st.machines mid
      (fun mm => { mm with stockLevel := m.stockLevel - q })
      (fun mm => { mm with lowLevelWarned := true })
      (fun mm => rfl)]
    simp
  · simp only [publish, Event.etype, hsub, dispatch, Subscriber.handle, hf1,
      if_neg hc, saleStep]
    rw [updateFirst_congr st.machines mid
      (fun mm => { mm with stockLevel := m.stockLevel - q })
      (fun mm => { mm with stockLevel := m.stockLevel - q, lowLevelWarned := m.lowLevelWarned })
      m hf rfl]
    simp

/-- Under the demo wiring, publishing a `MachineRefillEvent` for a machine
present in the store acts on that machine exactly by `refillStep`, records
the refill dispatch (and, when the step fires, the immediately-dispatched
`StockLevelOkEvent`) in the trace, logs the OK message when fired, and
throws nothing. -/
theorem publish_refill_demo (st : BusState) (q : Int) (mid : String) (m : Machine)
    (hw : st.subscribers = demoSubs) (hf : findMachine st mid = some m) :
    publish (Event.refill q mid) st =
      (let r := refillStep q (m.stockLevel, m.lowLevelWarned)
       ({ st with
          machines := updateFirst st.machines mid
            (fun mm => { mm with stockLevel := r.1.1, lowLevelWarned := r.1.2 }),
          trace := st.trace ++ [(Subscriber.machineRefill, Event.refill q mid)] ++
            (if r.2 then [(Subscriber.stockWarning, Event.stockLevelOk mid)] else []),
          output := st.output ++ (if r.2 then [okMsg mid] else []) }, none)) := by
  have hsub : subsFor st.subscribers "refill" = some [Subscriber.machineRefill] := by
    rw [hw]; rfl
  have hsub2 : subsFor st.subscribers "warning" = some [Subscriber.stockWarning] := by
    rw [hw]; rfl
  have hf1 : findMachine { st with trace := st.trace ++ [(Subscriber.machineRefill, Event.refill q mid)] } mid = some m := hf
  by_cases hc : 3 ≤ m.stockLevel + q ∧ m.lowLevelWarned = true
  · simp only [publish, Event.etype, hsub, dispatch, Subscriber.handle, hf1,
      if_pos hc, publishInner, hsub2, dispatchW, handleWarnEvt, refillStep]
    rw [updateFirst_updateFirst st.machines mid
      (fun mm => { mm with stockLevel := m.stockLevel + q })
      (fun mm => { mm with lowLevelWarned := false })
      (fun mm => rfl)]
    simp
  · simp only [publish, Event.etype, hsub, dispatch, Subscriber.handle, hf1,
      if_neg hc, refillStep]
    rw [updateFirst_congr st.machines mid
      (fun mm => { mm with stockLevel := m.stockLevel + q })
      (fun mm => { mm with stockLevel := m.stockLevel + q, lowLevelWarned := m.lowLevelWarned })
      m hf rfl]
    simp

/-- The demo scenario's four external events. -/
def demoEvents : List Event :=
  [Event.sale 2 "001", Event.sale 2 "001", Event.refill 2 "001", Event.refill 2 "001"]

/-- C1: the claim says a cascaded event is appended to a pending queue and
dispatched only after all previously queued events, so the demo scenario
should record [Sale, Sale, LowStockWarning, Refill, Refill, StockLevelOk].
The code has no queue: `publish` dispatches immediately and recursively, so
the `LowStockWarningEvent` published during the first sale's handling is
handled inside that very invocation, and the recorded order is
[Sale, LowStockWarning, Sale, Refill, StockLevelOk, Refill] — the claim's
order is not produced. -/
theorem C1_cascaded_events_dispatched_depth_first :
    (publishAll demoEvents demoState).1.trace.map (fun p => p.2) =
      [Event.sale 2 "001", Event.lowStockWarning "001", Event.sale 2 "001",
       Event.refill 2 "001", Event.stockLevelOk "001", Event.refill 2 "001"] ∧
    (publishAll demoEvents demoState).1.trace.map (fun p => p.2) ≠
      [Event.sale 2 "001", Event.sale 2 "001", Event.lowStockWarning "001",
       Event.refill 2 "001", Event.refill 2 "001", Event.stockLevelOk "001"] := by
  constructor
  · rfl
  · decide

/-- C2: the claim says `SaleHandler` publishes a `LowStockWarning` exactly
when the resulting stock is strictly below 3.  The code's guard is
`machine.stockLevel <= 3`: selling 2 from a stock of 5 leaves stock exactly
3 — not strictly below 3 — yet the warning is published and the flag set. -/
theorem C2_sale_warning_fires_at_stock_three :
    (publish (Event.sale 2 "001")
        { machines := [Machine.new "001"], subscribers := demoSubs,
          trace := [], output := [] }).2 = none ∧
    (publish (Event.sale 2 "001")
        { machines := [Machine.new "001"], subscribers := demoSubs,
          trace := [], output := [] }).1.machines =
      [{ id := "001", stockLevel := 3, lowLevelWarned := true }] ∧
    (Subscriber.stockWarning, Event.lowStockWarning "001") ∈
      (publish (Event.sale 2 "001")
        { machines := [Machine.new "001"], subscribers := demoSubs,
          trace := [], output := [] }).1.trace ∧
    ¬((3 : Int) < 3) := by
  refine ⟨rfl, rfl, ?_, by decide⟩
  decide

/-- C6: the claim says a failure mid-handling never leaves `lowStockWarned`
inconsistent with `stockLevel`.  The sale handler decrements the stock,
publishes the warning, and only then sets the flag; when a warning
subscriber (the spec-modelled `failing` handler) throws during that nested
publish, the error escapes with the stock already at 2 (< 3), the warning
already dispatched to the failing subscriber, and `lowLevelWarned` still
`false` — exactly the inconsistent state the claim rules out. -/
theorem C6_failed_handler_leaves_inconsistent_flag :
    (publish (Event.sale 3 "001")
        { machines := [Machine.new "001"],
          subscribers := [("sale", [Subscriber.machineSale]),
                          ("warning", [Subscriber.failing])],
          trace := [], output := [] }) =
      ({ machines := [{ id := "001", stockLevel := 2, lowLevelWarned := false }],
         subscribers := [("sale", [Subscriber.machineSale]),
                         ("warning", [Subscriber.failing])],
         trace := [(Subscriber.machineSale, Event.sale 3 "001"),
                   (Subscriber.failing, Event.lowStockWarning "001")],
         output := [] }, some "handler failure") ∧
    ((2 : Int) < 3) := by
  exact ⟨rfl, by decide⟩

/-- C3 counterexample: with `MachineSaleSubscriber` and
`StockWarningSubscriber` both registered under `'sale'`, the only removal
operation the bus offers — `unsubscribe('sale')` — deletes the whole entry,
so the other handler registered for that type loses its subscription too,
contradicting the claim that exactly one handler is removed. -/
theorem C3_unsubscribe_drops_sibling_handler :
    subsFor (unsubscribe
        { machines := demoMachines,
          subscribers := [("sale", [Subscriber.machineSale, Subscriber.stockWarning]),
                          ("refill", [Subscriber.machineRefill])],
          trace := [], output := [] } "sale").subscribers "sale" = none ∧
    subsFor
        ({ machines := demoMachines,
           subscribers := [("sale", [Subscriber.machineSale, Subscriber.stockWarning]),
                           ("refill", [Subscriber.machineRefill])],
           trace := [], output := [] } : BusState).subscribers "sale" =
      some [Subscriber.machineSale, Subscriber.stockWarning] := by
  exact ⟨rfl, rfl⟩

/-- Searching the subscriber map for a key other than the deleted one is
unaffected by the deletion. -/
theorem find?_filter_ne_key (l : List (String × List Subscriber))
    (ty ty' : String) (h : ty' ≠ ty) :
    (l.filter (fun p => !(p.1 == ty))).find? (fun p => p.1 == ty') =
      l.find? (fun p => p.1 == ty') := by
  induction l with
  | nil => rfl
  | cons p l ih =>
    by_cases hp : p.1 = ty
    · have hb : (p.1 == ty) = true := beq_iff_eq.mpr hp
      have hb' : (p.1 == ty') = false := by
        refine beq_eq_false_iff_ne.mpr ?_
        rw [hp]
        exact fun hh => h hh.symm
      simp [List.filter_cons, hb, List.find?_cons, hb', ih]
    · have hb : (p.1 == ty) = false := beq_eq_false_iff_ne.mpr hp
      by_cases hq : p.1 = ty'
      · have hq' : (p.1 == ty') = true := beq_iff_eq.mpr hq
        simp [List.filter_cons, hb, List.find?_cons, hq']
      · have hq' : (p.1 == ty') = false := beq_eq_false_iff_ne.mpr hq
        simp [List.filter_cons, hb, List.find?_cons, hq', ih]

/-- C3 amended: `unsubscribe` takes an event type, not a subscription
handle, and removes the entire subscriber list registered under that type;
lookups for every other type are unchanged (and deleting an absent type is
a no-op on every lookup). -/
theorem C3_unsubscribe_removes_entire_type (st : BusState) (ty ty' : String) :
    subsFor (unsubscribe st ty).subscribers ty' =
      if ty' = ty then none else subsFor st.subscribers ty' := by
  by_cases h : ty' = ty
  · subst h
    simp only [unsubscribe, subsFor, if_pos rfl]
    rw [List.find?_eq_none.mpr]
    · rfl
    · intro p hp
      have := List.of_mem_filter hp
      simp only [Bool.not_eq_true'] at this
      simp [this]
  · simp only [unsubscribe, subsFor, if_neg h]
    rw [find?_filter_ne_key st.subscribers ty ty' h]

/-- C5 counterexample: machine `'001'` is absent from the store, so handling
the first published sale throws `Machine not found`; the exception escapes
`publish` and the caller's loop, and the second event — a sale for the
machine `'002'` that does exist — is never dispatched: the trace holds only
the first invocation and machine `'002'` is untouched at stock 5. -/
theorem C5_failure_skips_remaining_events :
    publishAll [Event.sale 1 "001", Event.sale 1 "002"]
        { machines := [Machine.new "002"], subscribers := demoSubs,
          trace := [], output := [] } =
      ({ machines := [Machine.new "002"], subscribers := demoSubs,
         trace := [(Subscriber.machineSale, Event.sale 1 "001")], output := [] },
       some "Machine not found") := by
  rfl

/-- C5 amended: a handler failure while an event is being handled propagates
out of `publish` to the caller, and a batch of sequential publishes stops
there: none of the events after the failing one is dispatched (the bus keeps
no queue of its own). -/
theorem C5_handler_failure_aborts_batch (ev : Event) (evs : List Event)
    (st st1 : BusState) (e : Err) (h : publish ev st = (st1, some e)) :
    publishAll (ev :: evs) st = (st1, some e) := by
  simp [publishAll, h]

/-- Witness for `C5_handler_failure_aborts_batch` at the concrete failing
batch of `C5_failure_skips_remaining_events`. -/
theorem C5_handler_failure_aborts_batch_witness :
    publishAll [Event.sale 1 "001", Event.sale 1 "002"]
        { machines := [Machine.new "002"], subscribers := demoSubs,
          trace := [], output := [] } =
      ({ machines := [Machine.new "002"], subscribers := demoSubs,
         trace := [(Subscriber.machineSale, Event.sale 1 "001")], output := [] },
       some "Machine not found") :=
  C5_handler_failure_aborts_batch (Event.sale 1 "001") [Event.sale 1 "002"]
    { machines := [Machine.new "002"], subscribers := demoSubs,
      trace := [], output := [] }
    { machines := [Machine.new "002"], subscribers := demoSubs,
      trace := [(Subscriber.machineSale, Event.sale 1 "001")], output := [] }
    "Machine not found" rfl

/-- C7: publishing a `MachineSaleEvent` or `MachineRefillEvent` whose
machine id is absent from the store makes the corresponding handler's
repository lookup throw `Machine not found`; the error escapes `handle` and
`publish` to the caller (the invocation is recorded, no state is mutated,
and the result is the error rather than a silent no-op). -/
theorem C7_unknown_machine_notFound_propagates (st : BusState) (q : Int)
    (mid : String) (hw : st.subscribers = demoSubs)
    (hm : findMachine st mid = none) :
    publish (Event.sale q mid) st =
      ({ st with trace := st.trace ++ [(Subscriber.machineSale, Event.sale q mid)] },
       some "Machine not found") ∧
    publish (Event.refill q mid) st =
      ({ st with trace := st.trace ++ [(Subscriber.machineRefill, Event.refill q mid)] },
       some "Machine not found") := by
  have hsubS : subsFor st.subscribers "sale" = some [Subscriber.machineSale] := by
    rw [hw]; rfl
  have hsubR : subsFor st.subscribers "refill" = some [Subscriber.machineRefill] := by
    rw [hw]; rfl
  have hm1 : findMachine { st with trace := st.trace ++ [(Subscriber.machineSale, Event.sale q mid)] } mid = none := hm
  have hm2 : findMachine { st with trace := st.trace ++ [(Subscriber.machineRefill, Event.refill q mid)] } mid = none := hm
  constructor
  · simp only [publish, Event.etype, hsubS, dispatch, Subscriber.handle, hm1]
  · simp only [publish, Event.etype, hsubR, dispatch, Subscriber.handle, hm2]

/-- Witness for `C7_unknown_machine_notFound_propagates`: the demo store
holds machines 001–003, so publishing events for machine `'004'` errors. -/
theorem C7_unknown_machine_notFound_witness :
    publish (Event.sale 1 "004") demoState =
      ({ demoState with
         trace := demoState.trace ++ [(Subscriber.machineSale, Event.sale 1 "004")] },
       some "Machine not found") ∧
    publish (Event.refill 1 "004") demoState =
      ({ demoState with
         trace := demoState.trace ++ [(Subscriber.machineRefill, Event.refill 1 "004")] },
       some "Machine not found") :=
  C7_unknown_machine_notFound_propagates demoState 1 "004" rfl (by decide)

/-- A sale never clears the warned flag: once warned, further sales keep the
machine warned and publish no further warning. -/
theorem runSales_warned (qs : List Int) (s : Int) :
    (runSales qs (s, true)).2 = 0 ∧ (runSales qs (s, true)).1.2 = true := by
  induction qs generalizing s with
  | nil => exact ⟨rfl, rfl⟩
  | cons q qs ih =>
    have hstep : saleStep q (s, true) = ((s - q, true), false) := by
      simp [saleStep]
    simp only [runSales, hstep]
    simpa using ih (s - q)

/-- A refill never sets the warned flag: while unwarned, refills keep the
machine unwarned and publish no `StockLevelOkEvent`. -/
theorem runRefills_unwarned (qs : List Int) (s : Int) :
    (runRefills qs (s, false)).2 = 0 ∧ (runRefills qs (s, false)).1.2 = false := by
  induction qs generalizing s with
  | nil => exact ⟨rfl, rfl⟩
  | cons q qs ih =>
    have hstep : refillStep q (s, false) = ((s + q, false), false) := by
      simp [refillStep]
    simp only [runRefills, hstep]
    simpa using ih (s + q)

/-- Starting unwarned at stock at least 3, any sequence of non-negative
sales whose final stock is strictly below 3 publishes exactly one
`LowStockWarningEvent`. -/
theorem runSales_single_fire (qs : List Int) (s : Int)
    (hq : ∀ q ∈ qs, 0 ≤ q) (hs : 3 ≤ s)
    (hfin : (runSales qs (s, false)).1.1 < 3) :
    (runSales qs (s, false)).2 = 1 := by
  induction qs generalizing s with
  | nil =>
    simp only [runSales] at hfin
    omega
  | cons q qs ih =>
    have hq0 : 0 ≤ q := hq q (List.mem_cons_self q qs)
    have hq' : ∀ x ∈ qs, 0 ≤ x := fun x hx => hq x (List.mem_cons_of_mem q hx)
    by_cases hc : s - q ≤ 3
    · have hstep : saleStep q (s, false) = ((s - q, true), true) := by
        simp [saleStep, hc]
      simp only [runSales, hstep]
      have := (runSales_warned qs (s - q)).1
      simpa using this
    · have hstep : saleStep q (s, false) = ((s - q, false), false) := by
        simp [saleStep, hc]
      simp only [runSales, hstep] at hfin ⊢
      have hs' : 3 ≤ s - q := by omega
      simpa using ih (s - q) hq' hs' hfin

/-- Starting warned at stock at most 3, any non-empty sequence of
non-negative refills whose final stock is at least 3 publishes exactly one
`StockLevelOkEvent`. -/
theorem runRefills_single_fire (qs : List Int) (s : Int)
    (hq : ∀ q ∈ qs, 0 ≤ q) (hs : s ≤ 3) (hne : qs ≠ [])
    (hfin : 3 ≤ (runRefills qs (s, true)).1.1) :
    (runRefills qs (s, true)).2 = 1 := by
  induction qs generalizing s with
  | nil => exact absurd rfl hne
  | cons q qs ih =>
    have hq0 : 0 ≤ q := hq q (List.mem_cons_self q qs)
    have hq' : ∀ x ∈ qs, 0 ≤ x := fun x hx => hq x (List.mem_cons_of_mem q hx)
    by_cases hc : 3 ≤ s + q
    · have hstep : refillStep q (s, true) = ((s + q, false), true) := by
        simp [refillStep, hc]
      simp only [runRefills, hstep]
      have := (runRefills_unwarned qs (s + q)).1
      simpa using this
    · have hstep : refillStep q (s, true) = ((s + q, true), false) := by
        simp [refillStep, hc]
      simp only [runRefills, hstep] at hfin ⊢
      have hs' : s + q ≤ 3 := by omega
      rcases qs with _ | ⟨q2, qs⟩
      · simp only [runRefills] at hfin
        omega
      · simpa using ih (s + q) hq' hs' (by
          intro hcon
          exact List.noConfusion hcon) hfin

/-- The warned flag tracks the emission history: throughout any mixed run of
sale and refill steps, the flag is set exactly when the most recent derived
event emitted (the head of the most-recent-first accumulator) is a
`LowStockWarningEvent`. -/
theorem runOps_warned_iff (ops : List Op) (s : Int) (w : Bool)
    (acc : List EmitKind) (h : w = true ↔ acc.head? = some EmitKind.warning) :
    ((runOps ops (s, w) acc).1.2 = true ↔
      (runOps ops (s, w) acc).2.head? = some EmitKind.warning) := by
  induction ops generalizing s w acc with
  | nil => simpa [runOps] using h
  | cons o ops ih =>
    cases o with
    | sale q =>
      by_cases hc : s - q ≤ 3 ∧ w = false
      · have hstep : opStep (Op.sale q) (s, w) = ((s - q, true), some EmitKind.warning) := by
          simp [opStep, saleStep, hc]
        simp only [runOps, hstep]
        exact ih (s - q) true (EmitKind.warning :: acc) (by simp)
      · have hstep : opStep (Op.sale q) (s, w) = ((s - q, w), none) := by
          simp only [opStep, saleStep]
          rw [if_neg hc]
          simp
        simp only [runOps, hstep]
        exact ih (s - q) w acc h
    | refill q =>
      by_cases hc : 3 ≤ s + q ∧ w = true
      · have hstep : opStep (Op.refill q) (s, w) = ((s + q, false), some EmitKind.ok) := by
          simp [opStep, refillStep, hc]
        simp only [runOps, hstep]
        exact ih (s + q) false (EmitKind.ok :: acc) (by simp)
      · have hstep : opStep (Op.refill q) (s, w) = ((s + q, w), none) := by
          simp only [opStep, refillStep]
          rw [if_neg hc]
          simp
        simp only [runOps, hstep]
        exact ih (s + q) w acc h

/-- C4: the threshold machinery is edge-triggered.  (1) From an unwarned
machine at stock at least 3, a sale sequence (non-negative quantities) that
ends strictly below 3 publishes exactly one `LowStockWarningEvent`; once
warned, further sales publish none.  (2) From a warned machine at stock at
most 3, a non-empty refill sequence ending at or above 3 publishes exactly
one `StockLevelOkEvent`; while unwarned, refills publish none.  (3) Across
any mixed run started on a fresh (unwarned) machine, `lowLevelWarned` is set
exactly when the most recent derived event emitted is a
`LowStockWarningEvent` — i.e. a warning has been emitted with no subsequent
`StockLevelOkEvent`. -/
theorem C4_threshold_single_fire_and_flag_invariant :
    (∀ qs s, (∀ q ∈ qs, 0 ≤ q) → 3 ≤ s → (runSales qs (s, false)).1.1 < 3 →
      (runSales qs (s, false)).2 = 1) ∧
    (∀ qs s, (runSales qs (s, true)).2 = 0) ∧
    (∀ qs s, (∀ q ∈ qs, 0 ≤ q) → s ≤ 3 → qs ≠ [] →
      3 ≤ (runRefills qs (s, true)).1.1 → (runRefills qs (s, true)).2 = 1) ∧
    (∀ qs s, (runRefills qs (s, false)).2 = 0) ∧
    (∀ ops s, ((runOps ops (s, false) []).1.2 = true ↔
      (runOps ops (s, false) []).2.head? = some EmitKind.warning)) := by
  refine ⟨runSales_single_fire, ?_, runRefills_single_fire, ?_, ?_⟩
  · exact fun qs s => (runSales_warned qs s).1
  · exact fun qs s => (runRefills_unwarned qs s).1
  · exact fun ops s => runOps_warned_iff ops s false [] (by simp)

/-- Witness for `C4_threshold_single_fire_and_flag_invariant`: the demo
machine at stock 5 sold 2+2 fires one warning; refilled 2+2 from stock 1
while warned fires one OK; and after a single crossing sale the flag and
the emission history agree. -/
theorem C4_threshold_single_fire_witness :
    (runSales [2, 2] (5, false)).2 = 1 ∧
    (runRefills [2, 2] (1, true)).2 = 1 ∧
    ((runOps [Op.sale 4] (5, false) []).1.2 = true ↔
      (runOps [Op.sale 4] (5, false) []).2.head? = some EmitKind.warning) :=
  ⟨C4_threshold_single_fire_and_flag_invariant.1 [2, 2] 5 (by decide) (by decide)
      (by decide),
   C4_threshold_single_fire_and_flag_invariant.2.2.1 [2, 2] 1 (by decide) (by decide)
      (by decide) (by decide),
   C4_threshold_single_fire_and_flag_invariant.2.2.2.2 [Op.sale 4] 5⟩

/-- C8: for a machine present in the store (demo wiring), publishing a
refill updates that machine exactly by `refillStep` with no error; the step
adds the refill quantity to the stock and fires a `StockLevelOkEvent`
(clearing the flag) precisely when the new stock is at least 3 and the flag
was set; and repeated refills on an unwarned machine never fire. -/
theorem C8_refill_increments_and_fires_ok_edge :
    (∀ st q mid m, st.subscribers = demoSubs → findMachine st mid = some m →
      publish (Event.refill q mid) st =
        (let r := refillStep q (m.stockLevel, m.lowLevelWarned)
         ({ st with
            machines := updateFirst st.machines mid
              (fun mm => { mm with stockLevel := r.1.1, lowLevelWarned := r.1.2 }),
            trace := st.trace ++ [(Subscriber.machineRefill, Event.refill q mid)] ++
              (if r.2 then [(Subscriber.stockWarning, Event.stockLevelOk mid)] else []),
            output := st.output ++ (if r.2 then [okMsg mid] else []) }, none))) ∧
    (∀ q s, refillStep q s =
      (if 3 ≤ s.1 + q ∧ s.2 = true then ((s.1 + q, false), true)
       else ((s.1 + q, s.2), false))) ∧
    (∀ qs s, (runRefills qs (s, false)).2 = 0 ∧
      (runRefills qs (s, false)).1.2 = false) := by
  refine ⟨?_, fun q s => rfl, fun qs s => runRefills_unwarned qs s⟩
  intro st q mid m hw hf
  exact publish_refill_demo st q mid m hw hf

/-- Witness for `C8_refill_increments_and_fires_ok_edge`: refilling the demo
machine 001 by 2 throws nothing, and refilling an unwarned machine twice
fires no `StockLevelOkEvent`. -/
theorem C8_refill_witness :
    (publish (Event.refill 2 "001") demoState).2 = none ∧
    (runRefills [3, 5] (5, false)).2 = 0 :=
  ⟨by rw [C8_refill_increments_and_fires_ok_edge.1 demoState 2 "001"
        (Machine.new "001") rfl (by decide)],
   (C8_refill_increments_and_fires_ok_edge.2.2 [3, 5] 5).1⟩

/-- The two console messages of `StockWarningSubscriber` always differ (they
have different lengths), so the subscriber observably distinguishes the two
event classes that share the `'warning'` type tag. -/
theorem warnMsg_ne_okMsg (mid : String) : warnMsg mid ≠ okMsg mid := by
  intro h
  have hlen := congrArg String.length h
  have h1 : ("] need to be refill" : String).length = 19 := rfl
  have h2 : ("] status is OK" : String).length = 14 := rfl
  simp only [warnMsg, okMsg, String.length_append, h1, h2] at hlen
  omega

/-- C10: `LowStockWarningEvent.type()` and `StockLevelOkEvent.type()` both
return `'warning'`; under a single subscription of `StockWarningSubscriber`
to `'warning'` (demo wiring), publishing either event invokes that one
subscriber with it; and the subscriber tells the two apart only by the
event's class, emitting different messages for each. -/
theorem C10_warning_type_shared_discriminant :
    (∀ mid, Event.etype (Event.lowStockWarning mid) = "warning" ∧
      Event.etype (Event.stockLevelOk mid) = "warning") ∧
    (∀ st mid, st.subscribers = demoSubs →
      publish (Event.lowStockWarning mid) st =
        ({ st with
           trace := st.trace ++ [(Subscriber.stockWarning, Event.lowStockWarning mid)],
           output := st.output ++ [warnMsg mid] }, none) ∧
      publish (Event.stockLevelOk mid) st =
        ({ st with
           trace := st.trace ++ [(Subscriber.stockWarning, Event.stockLevelOk mid)],
           output := st.output ++ [okMsg mid] }, none)) ∧
    (∀ mid, warnMsg mid ≠ okMsg mid) := by
  refine ⟨fun mid => ⟨rfl, rfl⟩, ?_, warnMsg_ne_okMsg⟩
  intro st mid hw
  have hsub : subsFor st.subscribers "warning" = some [Subscriber.stockWarning] := by
    rw [hw]; rfl
  constructor
  · simp only [publish, Event.etype, hsub, dispatch, Subscriber.handle]
  · simp only [publish, Event.etype, hsub, dispatch, Subscriber.handle]

/-- Witness for `C10_warning_type_shared_discriminant` at the demo state and
machine 001. -/
theorem C10_warning_type_witness :
    publish (Event.lowStockWarning "001") demoState =
      ({ demoState with
         trace := demoState.trace ++ [(Subscriber.stockWarning, Event.lowStockWarning "001")],
         output := demoState.output ++ [warnMsg "001"] }, none) ∧
    publish (Event.stockLevelOk "001") demoState =
      ({ demoState with
         trace := demoState.trace ++ [(Subscriber.stockWarning, Event.stockLevelOk "001")],
         output := demoState.output ++ [okMsg "001"] }, none) :=
  C10_warning_type_shared_discriminant.2.1 demoState "001" rfl

/-- Every handler registered with the bus, across all event types. -/
def allHandlers (subs : List (String × List Subscriber)) : List Subscriber :=
  (subs.map (fun p => p.2)).flatten

/-- A handler found in some type's subscriber list is registered. -/
theorem subsFor_mem_allHandlers (subs : List (String × List Subscriber))
    (ty : String) (l : List Subscriber) (s : Subscriber)
    (hl : subsFor subs ty = some l) (hs : s ∈ l) : s ∈ allHandlers subs := by
  simp only [subsFor, Option.map_eq_some'] at hl
  obtain ⟨p, hp, hpl⟩ := hl
  have hpmem : p ∈ subs := List.mem_of_find?_eq_some hp
  subst hpl
  exact List.mem_flatten.mpr ⟨p.2, List.mem_map_of_mem _ hpmem, hs⟩

/-- `handleWarnEvt` never touches the subscriber map. -/
theorem handleWarnEvt_subscribers (s : Subscriber) (ev : Event) (st : BusState) :
    (handleWarnEvt s ev st).1.subscribers = st.subscribers := by
  cases s <;> cases ev <;> simp only [handleWarnEvt] <;> first | rfl | (split <;> rfl)

/-- `handleWarnEvt` never appends to the invocation trace. -/
theorem handleWarnEvt_trace (s : Subscriber) (ev : Event) (st : BusState) :
    (handleWarnEvt s ev st).1.trace = st.trace := by
  cases s <;> cases ev <;> simp only [handleWarnEvt] <;> first | rfl | (split <;> rfl)

/-- The nested dispatch loop never touches the subscriber map. -/
theorem dispatchW_subscribers (subs : List Subscriber) (ev : Event) (st : BusState) :
    (dispatchW subs ev st).1.subscribers = st.subscribers := by
  induction subs generalizing st with
  | nil => rfl
  | cons s rest ih =>
    simp only [dispatchW]
    rcases hres : handleWarnEvt s ev { st with trace := st.trace ++ [(s, ev)] } with ⟨st2, e⟩
    have h2 : st2.subscribers = st.subscribers := by
      have h := handleWarnEvt_subscribers s ev { st with trace := st.trace ++ [(s, ev)] }
      rw [hres] at h
      exact h
    cases e with
    | none => rw [ih st2, h2]
    | some err => exact h2

/-- Entries the nested dispatch loop appends to the trace all name a
subscriber from the dispatched list. -/
theorem dispatchW_trace (subs : List Subscriber) (ev : Event) (st : BusState) :
    ∃ tl, (dispatchW subs ev st).1.trace = st.trace ++ tl ∧
      ∀ e ∈ tl, e.1 ∈ subs := by
  induction subs generalizing st with
  | nil => exact ⟨[], by simp [dispatchW], by simp⟩
  | cons s rest ih =>
    simp only [dispatchW]
    rcases hres : handleWarnEvt s ev { st with trace := st.trace ++ [(s, ev)] } with ⟨st2, e⟩
    have h2 : st2.trace = st.trace ++ [(s, ev)] := by
      have h := handleWarnEvt_trace s ev { st with trace := st.trace ++ [(s, ev)] }
      rw [hres] at h
      exact h
    cases e with
    | none =>
      obtain ⟨tl, htl, hmem⟩ := ih st2
      refine ⟨(s, ev) :: tl, ?_, ?_⟩
      · rw [htl, h2]
        simp
      · intro e he
        rcases List.mem_cons.mp he with rfl | hh
        · exact List.mem_cons_self s rest
        · exact List.mem_cons_of_mem s (hmem e hh)
    | some err =>
      refine ⟨[(s, ev)], h2, ?_⟩
      intro e he
      rcases List.mem_cons.mp he with rfl | hh
      · exact List.mem_cons_self s rest
      · cases hh

/-- A nested publish never touches the subscriber map. -/
theorem publishInner_subscribers (ev : Event) (st : BusState) :
    (publishInner ev st).1.subscribers = st.subscribers := by
  unfold publishInner
  cases subsFor st.subscribers ev.etype with
  | none => rfl
  | some subs => exact dispatchW_subscribers subs ev st

/-- Entries a nested publish appends to the trace all name a registered
handler. -/
theorem publishInner_trace (ev : Event) (st : BusState) :
    ∃ tl, (publishInner ev st).1.trace = st.trace ++ tl ∧
      ∀ e ∈ tl, e.1 ∈ allHandlers st.subscribers := by
  unfold publishInner
  rcases hsub : subsFor st.subscribers ev.etype with _ | subs
  · exact ⟨[], by simp, by simp⟩
  · obtain ⟨tl, htl, hmem⟩ := dispatchW_trace subs ev st
    exact ⟨tl, htl, fun e he =>
      subsFor_mem_allHandlers st.subscribers ev.etype subs e.1 hsub (hmem e he)⟩

/-- A handler invocation never touches the bus's subscriber map: no handler
in the program (nor the modelled failing one) calls `subscribe` or
`unsubscribe`. -/
theorem handle_subscribers (s : Subscriber) (ev : Event) (st : BusState) :
    (Subscriber.handle s ev st).1.subscribers = st.subscribers := by
  cases s with
  | machineSale =>
    cases ev with
    | sale q mid =>
      simp only [Subscriber.handle]
      rcases hf : findMachine st mid with _ | m
      · simp
      · simp only []
        by_cases hc : m.stockLevel - q ≤ 3 ∧ m.lowLevelWarned = false
        · simp only [if_pos hc]
          rcases hp : publishInner (Event.lowStockWarning mid) { st with machines := updateFirst st.machines mid (fun mm => { mm with stockLevel := m.stockLevel - q }) } with ⟨st2, e⟩
          have h2 : st2.subscribers = st.subscribers := by
            have h := publishInner_subscribers (Event.lowStockWarning mid) { st with machines := updateFirst st.machines mid (fun mm => { mm with stockLevel := m.stockLevel - q }) }
            rw [hp] at h
            exact h
          cases e <;> simp only [hp] <;> simpa using h2
        · simp only [if_neg hc]
    | refill q mid =>
      simp only [Subscriber.handle]
      split <;> rfl
    | lowStockWarning mid =>
      simp only [Subscriber.handle]
      split <;> rfl
    | stockLevelOk mid =>
      simp only [Subscriber.handle]
      split <;> rfl
  | machineRefill =>
    cases ev with
    | refill q mid =>
      simp only [Subscriber.handle]
      rcases hf : findMachine st mid with _ | m
      · simp
      · simp only []
        by_cases hc : 3 ≤ m.stockLevel + q ∧ m.lowLevelWarned = true
        · simp only [if_pos hc]
          rcases hp : publishInner (Event.stockLevelOk mid) { st with machines := updateFirst st.machines mid (fun mm => { mm with stockLevel := m.stockLevel + q }) } with ⟨st2, e⟩
          have h2 : st2.subscribers = st.subscribers := by
            have h := publishInner_subscribers (Event.stockLevelOk mid) { st with machines := updateFirst st.machines mid (fun mm => { mm with stockLevel := m.stockLevel + q }) }
            rw [hp] at h
            exact h
          cases e <;> simp only [hp] <;> simpa using h2
        · simp only [if_neg hc]
    | sale q mid =>
      simp only [Subscriber.handle]
      split <;> rfl
    | lowStockWarning mid =>
      simp only [Subscriber.handle]
      split <;> rfl
    | stockLevelOk mid =>
      simp only [Subscriber.handle]
      split <;> rfl
  | stockWarning => cases ev <;> rfl
  | failing => cases ev <;> rfl

/-- Entries a handler invocation appends to the trace (through its nested
publish) all name handlers registered in the bus's current map. -/
theorem handle_trace (s : Subscriber) (ev : Event) (st : BusState) :
    ∃ tl, (Subscriber.handle s ev st).1.trace = st.trace ++ tl ∧
      ∀ e ∈ tl, e.1 ∈ allHandlers st.subscribers := by
  cases s with
  | machineSale =>
    cases ev with
    | sale q mid =>
      simp only [Subscriber.handle]
      rcases hf : findMachine st mid with _ | m
      · exact ⟨[], by simp, by simp⟩
      · simp only []
        by_cases hc : m.stockLevel - q ≤ 3 ∧ m.lowLevelWarned = false
        · simp only [if_pos hc]
          rcases hp : publishInner (Event.lowStockWarning mid) { st with machines := updateFirst st.machines mid (fun mm => { mm with stockLevel := m.stockLevel - q }) } with ⟨st2, e⟩
          have h2 : ∃ tl, st2.trace = st.trace ++ tl ∧
              ∀ e ∈ tl, e.1 ∈ allHandlers st.subscribers := by
            have h := publishInner_trace (Event.lowStockWarning mid) { st with machines := updateFirst st.machines mid (fun mm => { mm with stockLevel := m.stockLevel - q }) }
            rw [hp] at h
            exact h
          obtain ⟨tl, htl, hmem⟩ := h2
          cases e <;> simp only [hp] <;> exact ⟨tl, htl, hmem⟩
        · simp only [if_neg hc]
          exact ⟨[], by simp, by simp⟩
    | refill q mid =>
      simp only [Subscriber.handle]
      split <;> exact ⟨[], by simp, by simp⟩
    | lowStockWarning mid =>
      simp only [Subscriber.handle]
      split <;> exact ⟨[], by simp, by simp⟩
    | stockLevelOk mid =>
      simp only [Subscriber.handle]
      split <;> exact ⟨[], by simp, by simp⟩
  | machineRefill =>
    cases ev with
    | refill q mid =>
      simp only [Subscriber.handle]
      rcases hf : findMachine st mid with _ | m
      · exact ⟨[], by simp, by simp⟩
      · simp only []
        by_cases hc : 3 ≤ m.stockLevel + q ∧ m.lowLevelWarned = true
        · simp only [if_pos hc]
          rcases hp : publishInner (Event.stockLevelOk mid) { st with machines := updateFirst st.machines mid (fun mm => { mm with stockLevel := m.stockLevel + q }) } with ⟨st2, e⟩
          have h2 : ∃ tl, st2.trace = st.trace ++ tl ∧
              ∀ e ∈ tl, e.1 ∈ allHandlers st.subscribers := by
            have h := publishInner_trace (Event.stockLevelOk mid) { st with machines := updateFirst st.machines mid (fun mm => { mm with stockLevel := m.stockLevel + q }) }
            rw [hp] at h
            exact h
          obtain ⟨tl, htl, hmem⟩ := h2
          cases e <;> simp only [hp] <;> exact ⟨tl, htl, hmem⟩
        · simp only [if_neg hc]
          exact ⟨[], by simp, by simp⟩
    | sale q mid =>
      simp only [Subscriber.handle]
      split <;> exact ⟨[], by simp, by simp⟩
    | lowStockWarning mid =>
      simp only [Subscriber.handle]
      split <;> exact ⟨[], by simp, by simp⟩
    | stockLevelOk mid =>
      simp only [Subscriber.handle]
      split <;> exact ⟨[], by simp, by simp⟩
  | stockWarning => cases ev <;> exact ⟨[], by simp [Subscriber.handle], by simp⟩
  | failing => cases ev <;> exact ⟨[], by simp [Subscriber.handle], by simp⟩

/-- The top-level dispatch loop never touches the subscriber map. -/
theorem dispatch_subscribers (subs : List Subscriber) (ev : Event) (st : BusState) :
    (dispatch subs ev st).1.subscribers = st.subscribers := by
  induction subs generalizing st with
  | nil => rfl
  | cons s rest ih =>
    simp only [dispatch]
    rcases hres : Subscriber.handle s ev { st with trace := st.trace ++ [(s, ev)] } with ⟨st2, e⟩
    have h2 : st2.subscribers = st.subscribers := by
      have h := handle_subscribers s ev { st with trace := st.trace ++ [(s, ev)] }
      rw [hres] at h
      exact h
    cases e with
    | none => rw [ih st2, h2]
    | some err => exact h2

/-- Entries the top-level dispatch loop appends to the trace all name either
a subscriber from the dispatched list or a handler registered in the map. -/
theorem dispatch_trace (subs : List Subscriber) (ev : Event) (st : BusState) :
    ∃ tl, (dispatch subs ev st).1.trace = st.trace ++ tl ∧
      ∀ e ∈ tl, e.1 ∈ subs ∨ e.1 ∈ allHandlers st.subscribers := by
  induction subs generalizing st with
  | nil => exact ⟨[], by simp [dispatch], by simp⟩
  | cons s rest ih =>
    simp only [dispatch]
    rcases hres : Subscriber.handle s ev { st with trace := st.trace ++ [(s, ev)] } with ⟨st2, e⟩
    have htr : ∃ tl, st2.trace = (st.trace ++ [(s, ev)]) ++ tl ∧
        ∀ e ∈ tl, e.1 ∈ allHandlers st.subscribers := by
      have h := handle_trace s ev { st with trace := st.trace ++ [(s, ev)] }
      rw [hres] at h
      exact h
    obtain ⟨tlh, htlh, hmemh⟩ := htr
    have hsub2 : st2.subscribers = st.subscribers := by
      have h := handle_subscribers s ev { st with trace := st.trace ++ [(s, ev)] }
      rw [hres] at h
      exact h
    cases e with
    | some err =>
      refine ⟨(s, ev) :: tlh, by simpa using htlh, ?_⟩
      intro e he
      rcases List.mem_cons.mp he with rfl | hh
      · exact Or.inl (List.mem_cons_self s rest)
      · exact Or.inr (hmemh e hh)
    | none =>
      obtain ⟨tl2, htl2, hmem2⟩ := ih st2
      refine ⟨(s, ev) :: (tlh ++ tl2), ?_, ?_⟩
      · rw [htl2, htlh]
        simp
      · intro e he
        rcases List.mem_cons.mp he with rfl | hh
        · exact Or.inl (List.mem_cons_self s rest)
        · rcases List.mem_append.mp hh with h1 | h2
          · exact Or.inr (hmemh e h1)
          · rcases hmem2 e h2 with hr | ha
            · exact Or.inl (List.mem_cons_of_mem s hr)
            · rw [hsub2] at ha
              exact Or.inr ha

/-- Entries a top-level `publish` appends to the trace all name handlers
registered in the bus's map at the time of the call: `publish` never invokes
an unregistered handler. -/
theorem publish_trace (ev : Event) (st : BusState) :
    ∃ tl, (publish ev st).1.trace = st.trace ++ tl ∧
      ∀ e ∈ tl, e.1 ∈ allHandlers st.subscribers := by
  unfold publish
  rcases hsub : subsFor st.subscribers ev.etype with _ | subs
  · exact ⟨[], by simp, by simp⟩
  · obtain ⟨tl, htl, hmem⟩ := dispatch_trace subs ev st
    refine ⟨tl, htl, fun e he => ?_⟩
    rcases hmem e he with h1 | h2
    · exact subsFor_mem_allHandlers st.subscribers ev.etype subs e.1 hsub h1
    · exact h2

/-- C9: `subscribe` performs no dispatch (it leaves the trace, machines and
output untouched), and `publish` only ever invokes handlers registered at
the time of the call; hence a handler registered only after a publish has
completed is never invoked for that publish — its invocation count in the
trace is exactly what it was before the publish. -/
theorem C9_late_subscriber_never_invoked :
    (∀ st ty hdl, (subscribe st ty hdl).trace = st.trace ∧
      (subscribe st ty hdl).machines = st.machines ∧
      (subscribe st ty hdl).output = st.output) ∧
    (∀ st ev ty hdl, hdl ∉ allHandlers st.subscribers →
      ((subscribe (publish ev st).1 ty hdl).trace.filter (fun e => e.1 == hdl)) =
        st.trace.filter (fun e => e.1 == hdl)) := by
  have hsubscribe : ∀ st ty hdl, (subscribe st ty hdl).trace = st.trace ∧
      (subscribe st ty hdl).machines = st.machines ∧
      (subscribe st ty hdl).output = st.output := by
    intro st ty hdl
    unfold subscribe
    split <;> exact ⟨rfl, rfl, rfl⟩
  refine ⟨hsubscribe, ?_⟩
  intro st ev ty hdl hnot
  rw [(hsubscribe _ ty hdl).1]
  obtain ⟨tl, htl, hmem⟩ := publish_trace ev st
  rw [htl, List.filter_append]
  have hnil : tl.filter (fun e => e.1 == hdl) = [] := by
    rw [List.filter_eq_nil_iff]
    intro e he
    have hne : e.1 ≠ hdl := fun hEq => hnot (hEq ▸ hmem e he)
    simpa using hne
  rw [hnil, List.append_nil]

/-- Witness for `C9_late_subscriber_never_invoked`: the `failing` handler is
not registered in the demo wiring; subscribing it dispatches nothing, and
subscribing it after a sale has been published leaves it with zero recorded
invocations. -/
theorem C9_late_subscriber_witness :
    (subscribe demoState "sale" Subscriber.failing).trace = [] ∧
    ((subscribe (publish (Event.sale 2 "001") demoState).1 "warning"
        Subscriber.failing).trace.filter (fun e => e.1 == Subscriber.failing)) = [] :=
  ⟨(C9_late_subscriber_never_invoked.1 demoState "sale" Subscriber.failing).1,
   (C9_late_subscriber_never_invoked.2 demoState (Event.sale 2 "001") "warning"
      Subscriber.failing (by decide)).trans rfl⟩
